import Mathlib

/-!
Verification of the rPPG heart-rate estimator core
(`SignalProcessor`, `HeartRateDetector`).

All floating-point arithmetic of the source is embedded as exact rational
arithmetic (`ℚ`).  The only systematic translation device: comparisons of the
form `|x - μ| > t·σ` with `σ = Math.sqrt(variance)` are written in the exact
equivalent squared form `(x - μ)^2 > t^2·variance` (both sides of the source
comparison are nonnegative), so that every definition stays executable on `ℚ`.
-/

namespace SportTest

/-- Embedding of `SignalProcessor.movingAverage(signal, windowSize)`: element `i` of the
output is the average of the input elements at indices
`max(0, i-windowSize+1) .. i`. -/
def movingAverage (signal : List ℚ) (windowSize : ℕ) : List ℚ :=
  (List.range signal.length).map (fun i =>
    let win := (signal.take (i + 1)).drop (i + 1 - windowSize)
    win.sum / (win.length : ℚ))

/-- Embedding of `SignalProcessor.removeOutliers(signal, threshold)`: samples more than
`threshold` standard deviations from the mean are replaced by the mean.
The source compares `Math.abs(val - mean) > threshold * std`; this is written
in the equivalent squared form. -/
def removeOutliers (signal : List ℚ) (threshold : ℚ) : List ℚ :=
  let mean := signal.sum / (signal.length : ℚ)
  let variance := (signal.map (fun v => (v - mean) ^ 2)).sum / (signal.length : ℚ)
  signal.map (fun v => if threshold ^ 2 * variance < (v - mean) ^ 2 then mean else v)

/-- First loop of `SignalProcessor.bandPassFilter`: causal first-order IIR
high-pass, `y[i] = hp * (y[i-1] + x[i] - x[i-1])`, seeded with the previous
output `prevY` and previous input `prevX`. -/
def highPassRun (hp : ℚ) : ℚ → ℚ → List ℚ → List ℚ
  | _, _, [] => []
  | prevY, prevX, x :: xs =>
    let y := hp * (prevY + x - prevX)
    y :: highPassRun hp y x xs

/-- Second loop of `SignalProcessor.bandPassFilter`: in-place causal
first-order IIR low-pass, `z[i] = lp * y[i] + (1 - lp) * z[i-1]`. -/
def lowPassRun (lp : ℚ) : ℚ → List ℚ → List ℚ
  | _, [] => []
  | prev, y :: ys =>
    let z := lp * y + (1 - lp) * prev
    z :: lowPassRun lp z ys

/-- Embedding of `SignalProcessor.bandPassFilter(signal)`: high-pass then low-pass, each
seeded with the first sample, which is left unchanged (`filtered[0] = signal[0]`
and both loops start at index 1).  The filter coefficients are the component
fields `highPassAlpha` / `lowPassAlpha`, passed here as arguments. -/
def bandPassFilter (hp lp : ℚ) (signal : List ℚ) : List ℚ :=
  match signal with
  | [] => []
  | x :: xs => x :: lowPassRun lp x (highPassRun hp x x xs)

/-- Embedding of `SignalProcessor.calculateVariance(data)`. -/
def calculateVariance (data : List ℚ) : ℚ :=
  let mean := data.sum / (data.length : ℚ)
  (data.map (fun v => (v - mean) ^ 2)).sum / (data.length : ℚ)

/-- Mutable state of a `SignalProcessor` instance: the fields read or written
by the signal chain. -/
structure SignalProcessorState where
  sampleRate : ℕ
  bufferSize : ℕ
  signalBuffer : List ℚ
  lowPassAlpha : ℚ
  highPassAlpha : ℚ
  motionRobustBuffer : List ℚ
  adaptiveThreshold : ℚ
  motionDetectionWindow : ℕ
  deriving Repr, DecidableEq

/-- The `SignalProcessor` constructor (`constructor(sampleRate = 30)`). -/
def SignalProcessorState.init (sampleRate : ℕ) : SignalProcessorState :=
  { sampleRate := sampleRate
    bufferSize := sampleRate * 15
    signalBuffer := []
    lowPassAlpha := 3/10
    highPassAlpha := 95/100
    motionRobustBuffer := []
    adaptiveThreshold := 3/10
    motionDetectionWindow := 15 }

/-- Embedding of `SignalProcessor.reset()`: clears both buffers and resets the adaptive
parameters.  Note the source resets `adaptiveThreshold` to `0.7`, not the
constructor value `0.3`. -/
def SignalProcessorState.reset (s : SignalProcessorState) : SignalProcessorState :=
  { s with
    signalBuffer := []
    motionRobustBuffer := []
    adaptiveThreshold := 7/10
    lowPassAlpha := 15/100
    highPassAlpha := 98/100 }

/-- Embedding of `SignalProcessor.addDataPoint(value)` followed by
`updateMotionRobustBuffer(value)`: push to both ring buffers and drop the
oldest element of each buffer that exceeds its capacity. -/
def SignalProcessorState.addDataPoint (s : SignalProcessorState) (v : ℚ) :
    SignalProcessorState :=
  let buf := s.signalBuffer ++ [v]
  let buf := if s.bufferSize < buf.length then buf.drop 1 else buf
  let mbuf := s.motionRobustBuffer ++ [v]
  let mbuf := if s.motionDetectionWindow * s.sampleRate < mbuf.length then mbuf.drop 1 else mbuf
  { s with signalBuffer := buf, motionRobustBuffer := mbuf }

/-- Embedding of `SignalProcessor.detectMotionArtifacts()`: variance-of-variances test over
consecutive non-overlapping 1-second windows of the motion buffer.  The loop
`for (i = 0; i <= len - w; i += w)` produces exactly `len / w` full windows. -/
def SignalProcessorState.detectMotionArtifacts (s : SignalProcessorState) : Bool :=
  if s.motionRobustBuffer.length < s.motionDetectionWindow then false
  else
    let w := s.sampleRate
    let windows := (List.range (s.motionRobustBuffer.length / w)).map
      (fun k => (s.motionRobustBuffer.drop (k * w)).take w)
    let vars := windows.map calculateVariance
    if vars.length < 2 then false
    else decide ((vars.sum / (vars.length : ℚ)) * (3/2) < calculateVariance vars)

/-- Embedding of `SignalProcessor.adaptiveSignalProcessing(signal)`: re-evaluates the motion
state, stores the corresponding filter coefficients on the component, and
smooths with the corresponding moving-average window. -/
def SignalProcessorState.adaptiveSignalProcessing (s : SignalProcessorState)
    (signal : List ℚ) : List ℚ × SignalProcessorState :=
  if s.detectMotionArtifacts then
    (movingAverage signal 8, { s with lowPassAlpha := 1/10, highPassAlpha := 99/100 })
  else
    (movingAverage signal 5, { s with lowPassAlpha := 15/100, highPassAlpha := 98/100 })

/-- Embedding of `SignalProcessor.getProcessedSignal()`: `null` below 30 samples, otherwise
outlier clipping, then the IIR bandpass with the *currently stored* alphas,
then the adaptive stage (which re-evaluates motion and updates the alphas). -/
def SignalProcessorState.getProcessedSignal (s : SignalProcessorState) :
    Option (List ℚ) × SignalProcessorState :=
  if s.signalBuffer.length < 30 then (none, s)
  else
    let sig := removeOutliers s.signalBuffer 2
    let sig := bandPassFilter s.highPassAlpha s.lowPassAlpha sig
    let (sig, s') := s.adaptiveSignalProcessing sig
    (some sig, s')

/-- A detected local spectral maximum, as pushed by
`SignalProcessor.findRobustPeakFrequency`. -/
structure Peak where
  index : ℕ
  value : ℚ
  frequency : ℚ
  sharpness : ℚ
  deriving Repr, DecidableEq

/-- Embedding of `SignalProcessor.calculatePeakSharpness(magnitude, peakIndex)`: mean of
`magnitude[peakIndex] - magnitude[i]` over `i ≠ peakIndex` in the window
`[max(0, peakIndex-3), min(length, peakIndex+4))`. -/
def calculatePeakSharpness (magnitude : List ℚ) (peakIndex : ℕ) : ℚ :=
  let start := peakIndex - 3
  let stop := min magnitude.length (peakIndex + 4)
  let idxs := (((List.range (stop - start)).map (· + start)).filter (· ≠ peakIndex))
  if 0 < idxs.length then
    (idxs.map (fun i => magnitude.getD peakIndex 0 - magnitude.getD i 0)).sum /
      (idxs.length : ℚ)
  else 0

/-- The frequency band scanned by the estimator: `minIndex = ⌊0.7·N/rate⌋`,
`maxIndex = ⌊3.5·N/rate⌋` over a magnitude array of length `N`. -/
def bandMinIndex (n : ℕ) (rate : ℚ) : ℤ := ⌊(7/10 : ℚ) * n / rate⌋

def bandMaxIndex (n : ℕ) (rate : ℚ) : ℤ := ⌊(7/2 : ℚ) * n / rate⌋

/-- The local-maximum scan of `findRobustPeakFrequency`: indices `i` with
`minIndex + 1 ≤ i`, `i < maxIndex - 1`, `i < length/2`, and
`magnitude[i-1] < magnitude[i] > magnitude[i+1]` (strictly), each recorded
with its bin frequency `i·rate/N` and its sharpness. -/
def findPeaks (magnitude : List ℚ) (rate : ℚ) : List Peak :=
  let minIndex := bandMinIndex magnitude.length rate
  let maxIndex := bandMaxIndex magnitude.length rate
  ((List.range magnitude.length).filter (fun (i : ℕ) =>
      decide (minIndex + 1 ≤ (i : ℤ)) && decide ((i : ℤ) < maxIndex - 1) &&
      decide (2 * i < magnitude.length) &&
      decide (magnitude.getD (i - 1) 0 < magnitude.getD i 0) &&
      decide (magnitude.getD (i + 1) 0 < magnitude.getD i 0))).map
    (fun i =>
      { index := i
        value := magnitude.getD i 0
        frequency := (i : ℚ) * rate / (magnitude.length : ℚ)
        sharpness := calculatePeakSharpness magnitude i })

/-- The ranking key of the peak sort: `value * (1 + sharpness)`. -/
def peakScore (p : Peak) : ℚ := p.value * (1 + p.sharpness)

/-- Insert a peak into a score-descending sorted list, after every element of
strictly greater score and before every element of smaller or equal score. -/
def insertByScore (x : Peak) : List Peak → List Peak
  | [] => [x]
  | y :: ys =>
    if peakScore x < peakScore y then y :: insertByScore x ys
    else x :: y :: ys

/-- Embedding of `peaks.sort((a,b) => scoreB - scoreA)`: stable sort, descending by score
(ties keep the original — ascending bin-index — order; `Array.prototype.sort`
is stable), modelled as stable insertion sort. -/
def sortPeaks : List Peak → List Peak
  | [] => []
  | x :: xs => insertByScore x (sortPeaks xs)

/-- Mean magnitude over `magnitude.slice(minIndex, maxIndex)`; the source
divides by `maxIndex - minIndex`. -/
def bandAverage (magnitude : List ℚ) (rate : ℚ) : ℚ :=
  let minIndex := bandMinIndex magnitude.length rate
  let maxIndex := bandMaxIndex magnitude.length rate
  ((magnitude.take maxIndex.toNat).drop minIndex.toNat).sum /
    ((maxIndex - minIndex : ℤ) : ℚ)

/-- The half-frequency branch of `findRobustPeakFrequency` (source lines
399-416): the *first* peak of the score-sorted list within 0.1 Hz of
`f_best/2` is tested; it is preferred only when its magnitude is strictly
above `0.5·m_best`, `60·f_best > 120` and `60·f_half ∈ [50, 120]`. -/
def halfFreqCheck (sorted : List Peak) (best : Peak) : ℚ :=
  match sorted.find? (fun p => decide (|p.frequency - best.frequency / 2| < 1/10)) with
  | some h =>
    if best.value * (1/2) < h.value then
      if 120 < best.frequency * 60 ∧ 50 ≤ h.frequency * 60 ∧ h.frequency * 60 ≤ 120
      then h.frequency else best.frequency
    else best.frequency
  | none => best.frequency

/-- Embedding of `SignalProcessor.findRobustPeakFrequency(magnitude, sampleRate)` with the
significance margin `thr` (the component field `adaptiveThreshold`): returns
`0` when no peak exists or the best peak is not significant, otherwise the
octave-corrected peak frequency.  The source sorts `peaks` in place, so the
`find` calls of the octave correction search the *sorted* list. -/
def findRobustPeakFrequency (magnitude : List ℚ) (rate thr : ℚ) : ℚ :=
  match sortPeaks (findPeaks magnitude rate) with
  | [] => 0
  | best :: rest =>
    if best.value < bandAverage magnitude rate * (3/2 + thr) then 0
    else
      match (best :: rest).find?
          (fun p => decide (|p.frequency - best.frequency * 2| < 1/10)) with
      | some d =>
        if best.value * (7/10) < d.value then d.frequency
        else halfFreqCheck (best :: rest) best
      | none => halfFreqCheck (best :: rest) best

/-- The BPM decision of `SignalProcessor.calculateHeartRate` (source lines
299-326), as a function of the selected peak frequency: `bpm = 60·f`, the
doubling rescue for `bpm ∈ [25, 50)`, the halving rescue for
`bpm ∈ (150, 400]`, then `Math.round(bpm)` accepted iff the (unrounded)
value lies in `[40, 220]`, `null` otherwise. -/
def heartRateDecision (peakFrequency : ℚ) : Option ℤ :=
  let bpm := peakFrequency * 60
  let bpm :=
    if bpm < 50 ∧ 25 ≤ bpm then
      if 50 ≤ bpm * 2 ∧ bpm * 2 ≤ 200 then bpm * 2 else bpm
    else bpm
  let bpm :=
    if 150 < bpm ∧ bpm ≤ 400 then
      if 50 ≤ bpm / 2 ∧ bpm / 2 ≤ 150 then bpm / 2 else bpm
    else bpm
  if 40 ≤ bpm ∧ bpm ≤ 220 then some (round bpm) else none

/-- An entry of `HeartRateDetector.heartRateHistory`: `{value, timestamp}`. -/
structure HRRecord where
  value : ℤ
  timestamp : ℤ
  deriving Repr, DecidableEq

/-- The running-minimum loop of `getDelayedHeartRate`: `minTimeDiff` starts at
`Infinity` (modelled by `none`) and is replaced on every strictly smaller
element. -/
def foldMin (l : List ℤ) : Option ℤ :=
  l.foldl
    (fun acc x =>
      match acc with
      | none => some x
      | some m => if x < m then some x else some m)
    none

/-- Embedding of `HeartRateDetector.getStableHeartRate(targetTime)`: mean of the records
within 2000 ms of the target, rejected when the standard deviation exceeds 15.
The source compares `stdDev = Math.sqrt(variance) > 15`; this is written in
the equivalent squared form `variance > 225`. -/
def getStableHeartRate (history : List HRRecord) (targetTime : ℤ) : Option ℤ :=
  let relevant := history.filter (fun r => decide (|r.timestamp - targetTime| < 2000))
  if relevant.length = 0 then none
  else
    let values := relevant.map (fun r => (r.value : ℚ))
    let avg := values.sum / (values.length : ℚ)
    let variance := (values.map (fun v => (v - avg) ^ 2)).sum / (values.length : ℚ)
    if 225 < variance then none else some (round avg)

/-- Embedding of `HeartRateDetector.getDelayedHeartRate(currentTime)`: target time is
`currentTime - 5000` (the display delay); if the record closest to the target
is within (strictly) 2000 ms, delegate to `getStableHeartRate`, else `null`. -/
def getDelayedHeartRate (history : List HRRecord) (currentTime : ℤ) : Option ℤ :=
  let targetTime := currentTime - 5000
  match foldMin (history.map (fun r => |r.timestamp - targetTime|)) with
  | some m => if m < 2000 then getStableHeartRate history targetTime else none
  | none => none

/-- The detector state touched by the calibration gate:
`{heartRateHistory, calibrationStartTime, isCalibrating}`. -/
structure DetectorState where
  heartRateHistory : List HRRecord
  calibrationStartTime : ℤ
  isCalibrating : Bool
  deriving Repr, DecidableEq

/-- The calibration-relevant effects of `HeartRateDetector.startDetection()`:
clear the history, record the wall-clock start time, raise `isCalibrating`. -/
def startDetection (now : ℤ) : DetectorState :=
  { heartRateHistory := []
    calibrationStartTime := now
    isCalibrating := true }

/-- What the heart-rate element shows after one `updateHeartRate()` tick. -/
inductive HRDisplay where
  | calibrating (progress : ℤ)
  | bpm (n : ℤ)
  | unavailable
  deriving Repr, DecidableEq

/-- Embedding of `HeartRateDetector.updateHeartRate()` at wall-clock time `now`, with
`heartRate` the value returned by `calculateHeartRate()` this tick: record a
non-null estimate and drop records older than
`calibrationPeriod + displayDelay = 20000` ms; leave calibration once
`now - calibrationStartTime ≥ 15000`; during calibration display the progress
percentage, afterwards the delayed heart rate (or `-- BPM`). -/
def updateHeartRate (s : DetectorState) (now : ℤ) (heartRate : Option ℤ) :
    HRDisplay × DetectorState :=
  let history :=
    match heartRate with
    | some v => (s.heartRateHistory ++ [HRRecord.mk v now]).filter
        (fun r => decide (now - r.timestamp < 20000))
    | none => s.heartRateHistory
  let calibrating := s.isCalibrating && decide (now - s.calibrationStartTime < 15000)
  let s' := { s with heartRateHistory := history, isCalibrating := calibrating }
  let display :=
    if calibrating then
      HRDisplay.calibrating ⌊(((now - s.calibrationStartTime : ℤ) : ℚ) / 15000) * 100⌋
    else
      match getDelayedHeartRate history now with
      | some v => HRDisplay.bpm v
      | none => HRDisplay.unavailable
  (display, s')

/-- A whole session segment: fold `updateHeartRate` over a list of ticks,
each tick being a wall-clock time paired with that tick's
`calculateHeartRate()` result. -/
def runDetector (s : DetectorState) (ticks : List (ℤ × Option ℤ)) : DetectorState :=
  ticks.foldl (fun s t => (updateHeartRate s t.1 t.2).2) s

/-- The BPM decision as described by the specification: the two range-based
rescues are disjoint cases on the original `bpm = 60·f`, the result is
accepted iff the (unrounded) rescued value lies in `[40, 220]` and returned
rounded to the nearest integer.  To be compared with `heartRateDecision`,
which applies the two rescues sequentially. -/
def heartRateDecisionSpec (f : ℚ) : Option ℤ :=
  let bpm := 60 * f
  let r :=
    if 25 ≤ bpm ∧ bpm < 50 then
      if 50 ≤ 2 * bpm ∧ 2 * bpm ≤ 200 then 2 * bpm else bpm
    else if 150 < bpm ∧ bpm ≤ 400 then
      if 50 ≤ bpm / 2 ∧ bpm / 2 ≤ 150 then bpm / 2 else bpm
    else bpm
  if 40 ≤ r ∧ r ≤ 220 then some (round r) else none

/-- Predicate stating that `d` is the first element of `l` satisfying `p` (the element `Array.find`
returns): everything before it in `l` fails `p`. -/
def FirstWith (l : List Peak) (p : Peak → Prop) (d : Peak) : Prop :=
  ∃ l₁ l₂, l = l₁ ++ d :: l₂ ∧ p d ∧ ∀ x ∈ l₁, ¬ p x

/-- A 64-bin magnitude spectrum with local maxima at bin 2 (value 10,
frequency 15/16 Hz) and bin 4 (value 7, frequency 15/8 Hz — exactly the
double of bin 2's frequency, with magnitude exactly `0.7 · 10`). -/
def magOctave : List ℚ :=
  (List.range 64).map (fun i => if i = 2 then 10 else if i = 4 then 7 else 0)

/-- The best-scoring peak of `magOctave` (score `10·(1+43/5) = 96`). -/
def peakLow : Peak := Peak.mk 2 10 (15/16) (43/5)

/-- The double-frequency peak of `magOctave` (score `7·(1+16/3) = 133/3`). -/
def peakDouble : Peak := Peak.mk 4 7 (15/8) (16/3)

/-- A 64-bin magnitude spectrum whose only peak (bin 3, value 10) sits at
exactly twice the in-band mean magnitude 5: significant for the constructor
margin `adaptiveThreshold = 0.3` (gate `1.8·mavg = 9`), rejected for the
post-`reset()` margin `0.7` (gate `2.2·mavg = 11`). -/
def magGate : List ℚ :=
  (List.range 64).map (fun i => if i = 3 then 10 else if 1 ≤ i ∧ i ≤ 6 then 4 else 0)

/-- Sixty samples: one second of silence followed by one second of a strong
alternating component, which makes `detectMotionArtifacts` fire (per-window
variances `[0, 4]`, variance-of-variances `4 > 1.5·2`). -/
def motionSamples : List ℚ :=
  List.replicate 30 0 ++ (List.range 30).map (fun i => if i % 2 = 0 then 0 else 4)

/-- The processor state reached from a session start (`reset()`) by feeding
`motionSamples`: the stored filter coefficients are still the nominal
`0.15 / 0.98` even though motion is detected on the buffered signal. -/
def motionState : SignalProcessorState :=
  motionSamples.foldl SignalProcessorState.addDataPoint
    ((SignalProcessorState.init 30).reset)

/-! ## Helper lemmas -/

theorem listVariance_nonneg (l : List ℚ) (mean : ℚ) :
    0 ≤ (l.map (fun v => (v - mean) ^ 2)).sum / (l.length : ℚ) := by
  apply div_nonneg
  · apply List.sum_nonneg
    intro x hx
    obtain ⟨v, _, rfl⟩ := List.mem_map.1 hx
    positivity
  · exact_mod_cast Nat.zero_le _

/-! ## Claim C7 — outlier clipping -/

/-- Claim C7: for every non-empty input signal, with μ and σ the mean and
standard deviation of the *input*, outlier clipping is the single-pass map
replacing exactly the samples with `|x-μ| > 2σ` by `μ`, and therefore every
output sample satisfies `|y-μ| ≤ 2σ`.  Comparisons with `σ = √variance` are
stated in the equivalent squared form. -/
theorem c7_outlier_bound (signal : List ℚ) (_hne : signal ≠ []) :
    removeOutliers signal 2 =
      signal.map (fun v =>
        if 4 * ((signal.map (fun u =>
            (u - signal.sum / (signal.length : ℚ)) ^ 2)).sum / (signal.length : ℚ)) <
           (v - signal.sum / (signal.length : ℚ)) ^ 2
        then signal.sum / (signal.length : ℚ) else v)
    ∧ ∀ y ∈ removeOutliers signal 2,
        (y - signal.sum / (signal.length : ℚ)) ^ 2 ≤
          4 * ((signal.map (fun u =>
            (u - signal.sum / (signal.length : ℚ)) ^ 2)).sum / (signal.length : ℚ)) := by
  constructor
  · simp only [removeOutliers]
    norm_num
  · intro y hy
    simp only [removeOutliers] at hy
    obtain ⟨x, hx, rfl⟩ := List.mem_map.1 hy
    set mean := signal.sum / (signal.length : ℚ) with hmean
    set variance :=
      (signal.map (fun u => (u - mean) ^ 2)).sum / (signal.length : ℚ) with hvar
    have hv : (0:ℚ) ≤ variance := listVariance_nonneg signal mean
    by_cases hcase : (2:ℚ) ^ 2 * variance < (x - mean) ^ 2
    · rw [if_pos hcase]
      simpa using by positivity
    · rw [if_neg hcase]
      have := not_lt.1 hcase
      nlinarith

/-- Witness for C7 at a concrete signal with a genuine outlier: ten zeros and
one sample at 100 (mean 100/11, variance 1100000/1331). -/
theorem c7_outlier_bound_witness :
    (([0, 0, 0, 0, 0, 0, 0, 0, 0, 0, 100] : List ℚ) ≠ []) ∧
    (removeOutliers [0, 0, 0, 0, 0, 0, 0, 0, 0, 0, 100] 2 =
      ([0, 0, 0, 0, 0, 0, 0, 0, 0, 0, 100] : List ℚ).map (fun v =>
        if 4 * ((([0, 0, 0, 0, 0, 0, 0, 0, 0, 0, 100] : List ℚ).map (fun u =>
            (u - ([0, 0, 0, 0, 0, 0, 0, 0, 0, 0, 100] : List ℚ).sum / 11) ^ 2)).sum / 11) <
           (v - ([0, 0, 0, 0, 0, 0, 0, 0, 0, 0, 100] : List ℚ).sum / 11) ^ 2
        then ([0, 0, 0, 0, 0, 0, 0, 0, 0, 0, 100] : List ℚ).sum / 11 else v)
    ∧ ∀ y ∈ removeOutliers [0, 0, 0, 0, 0, 0, 0, 0, 0, 0, 100] 2,
        (y - ([0, 0, 0, 0, 0, 0, 0, 0, 0, 0, 100] : List ℚ).sum / 11) ^ 2 ≤
          4 * ((([0, 0, 0, 0, 0, 0, 0, 0, 0, 0, 100] : List ℚ).map (fun u =>
            (u - ([0, 0, 0, 0, 0, 0, 0, 0, 0, 0, 100] : List ℚ).sum / 11) ^ 2)).sum / 11)) := by
  refine ⟨by decide, ?_⟩
  have h := c7_outlier_bound [0, 0, 0, 0, 0, 0, 0, 0, 0, 0, 100] (by decide)
  simpa using h

/-! ## Claim C10 — moving-average smoother -/

/-- Claim C10: for every input signal and window size `w ≥ 1`, the smoother
preserves the length, output element `i` is the arithmetic mean of the
trailing `min(i+1, w)` input elements ending at `i`, and every output element
lies between any lower and any upper bound of the input. -/
theorem c10_moving_average (signal : List ℚ) (w : ℕ) (hw : 1 ≤ w) :
    (movingAverage signal w).length = signal.length
    ∧ (∀ i, i < signal.length →
        (movingAverage signal w).getD i 0 =
          ((signal.take (i + 1)).drop (i + 1 - w)).sum / ((min (i + 1) w : ℕ) : ℚ))
    ∧ ∀ m M, (∀ x ∈ signal, m ≤ x) → (∀ x ∈ signal, x ≤ M) →
        ∀ y ∈ movingAverage signal w, m ≤ y ∧ y ≤ M := by
  have hwinlen : ∀ i, i < signal.length →
      ((signal.take (i + 1)).drop (i + 1 - w)).length = min (i + 1) w := by
    intro i hi
    rw [List.length_drop, List.length_take]
    omega
  refine ⟨by simp [movingAverage], ?_, ?_⟩
  · intro i hi
    have : (movingAverage signal w).getD i 0 =
        ((signal.take (i + 1)).drop (i + 1 - w)).sum /
          ((((signal.take (i + 1)).drop (i + 1 - w)).length : ℕ) : ℚ) := by
      simp [movingAverage, List.getD, List.getElem?_map, List.getElem?_range hi]
    rw [this, hwinlen i hi]
  · intro m M hm hM y hy
    simp only [movingAverage, List.mem_map, List.mem_range] at hy
    obtain ⟨i, hi, rfl⟩ := hy
    set win := (signal.take (i + 1)).drop (i + 1 - w) with hwin
    have hlen : win.length = min (i + 1) w := hwinlen i hi
    have hpos : 0 < win.length := by omega
    have hposQ : (0:ℚ) < (win.length : ℚ) := by exact_mod_cast hpos
    have hmemsig : ∀ x ∈ win, x ∈ signal := by
      intro x hx
      exact List.mem_of_mem_take (List.mem_of_mem_drop hx)
    have hsum_le : win.sum ≤ (win.length : ℚ) * M := by
      calc win.sum ≤ win.length • M :=
            List.sum_le_card_nsmul win M (fun x hx => hM x (hmemsig x hx))
        _ = (win.length : ℚ) * M := by rw [nsmul_eq_mul]

    have hle_sum : (win.length : ℚ) * m ≤ win.sum := by
      calc (win.length : ℚ) * m = win.length • m := by rw [nsmul_eq_mul]
        _ ≤ win.sum := List.card_nsmul_le_sum win m (fun x hx => hm x (hmemsig x hx))
    constructor
    · rw [le_div_iff₀ hposQ]
      linarith
    · rw [div_le_iff₀ hposQ]
      linarith

/-- Witness for C10 at `signal = [1, 3, 5]`, `w = 2`. -/
theorem c10_moving_average_witness :
    1 ≤ 2
    ∧ ((movingAverage [1, 3, 5] 2).length = ([1, 3, 5] : List ℚ).length
    ∧ (∀ i, i < ([1, 3, 5] : List ℚ).length →
        (movingAverage [1, 3, 5] 2).getD i 0 =
          ((([1, 3, 5] : List ℚ).take (i + 1)).drop (i + 1 - 2)).sum /
            ((min (i + 1) 2 : ℕ) : ℚ))
    ∧ ∀ m M, (∀ x ∈ ([1, 3, 5] : List ℚ), m ≤ x) →
        (∀ x ∈ ([1, 3, 5] : List ℚ), x ≤ M) →
        ∀ y ∈ movingAverage [1, 3, 5] 2, m ≤ y ∧ y ≤ M) :=
  ⟨by decide, c10_moving_average [1, 3, 5] 2 (by decide)⟩

/-! ## Claim C8 — ring-buffer bound and ordering -/

theorem addDataPoint_signalBuffer (s : SignalProcessorState) (v : ℚ) :
    (s.addDataPoint v).signalBuffer =
      (if s.bufferSize < (s.signalBuffer ++ [v]).length
       then (s.signalBuffer ++ [v]).drop 1 else s.signalBuffer ++ [v]) ∧
    (s.addDataPoint v).bufferSize = s.bufferSize := by
  simp [SignalProcessorState.addDataPoint]

theorem addMany_signalBuffer (xs : List ℚ) :
    ∀ (s : SignalProcessorState), s.bufferSize = 450 → s.signalBuffer.length ≤ 450 →
    (xs.foldl SignalProcessorState.addDataPoint s).signalBuffer =
      (s.signalBuffer ++ xs).drop ((s.signalBuffer ++ xs).length - 450) := by
  induction xs with
  | nil =>
    intro s hcap hlen
    simp only [List.foldl_nil, List.append_nil]
    have : s.signalBuffer.length - 450 = 0 := by omega
    rw [this, List.drop_zero]
  | cons x xs ih =>
    intro s hcap hlen
    rw [List.foldl_cons]
    obtain ⟨hbuf, hcap2⟩ := addDataPoint_signalBuffer s x
    rw [hcap] at hbuf
    by_cases hfull : s.signalBuffer.length = 450
    · have hA : (s.signalBuffer ++ [x]).length = 451 := by
        simp [hfull]
      have hcond : 450 < (s.signalBuffer ++ [x]).length := by omega
      rw [if_pos hcond] at hbuf
      have hlen2 : (s.addDataPoint x).signalBuffer.length ≤ 450 := by
        rw [hbuf, List.length_drop]
        omega
      have h1 : (s.signalBuffer ++ [x]).drop 1 ++ xs =
          ((s.signalBuffer ++ [x]) ++ xs).drop 1 :=
        (List.drop_append_of_le_length (by omega)).symm
      rw [ih (s.addDataPoint x) (by rw [hcap2, hcap]) hlen2, hbuf, h1, List.drop_drop]
      have harr : (s.signalBuffer ++ [x]) ++ xs = s.signalBuffer ++ x :: xs := by
        simp
      rw [harr]
      have hidx : 1 + (((s.signalBuffer ++ x :: xs).drop 1).length - 450) =
          (s.signalBuffer ++ x :: xs).length - 450 := by
        rw [List.length_drop]
        simp only [List.length_append, List.length_cons, List.length_nil] at hA ⊢
        omega
      rw [hidx]
    · have hcond : ¬ 450 < (s.signalBuffer ++ [x]).length := by
        simp only [List.length_append, List.length_cons, List.length_nil]
        omega
      rw [if_neg hcond] at hbuf
      have hlen2 : (s.addDataPoint x).signalBuffer.length ≤ 450 := by
        rw [hbuf]
        simp only [List.length_append, List.length_cons, List.length_nil]
        omega
      rw [ih (s.addDataPoint x) (by rw [hcap2, hcap]) hlen2, hbuf]
      have harr : (s.signalBuffer ++ [x]) ++ xs = s.signalBuffer ++ x :: xs := by
        simp
      rw [harr]

/-- Claim C8: starting from the processor state right after `reset()` (main
ring buffer empty, capacity `W = 30·15 = 450`), feeding any `k` samples
leaves the ring buffer equal to the last `min(k, 450)` of them in insertion
order — i.e. each overflow drops the oldest element, the length is exactly
`min(k, W)`, and the content is a suffix of the insertion sequence. -/
theorem c8_ring_buffer (xs : List ℚ) :
    (xs.foldl SignalProcessorState.addDataPoint
        ((SignalProcessorState.init 30).reset)).signalBuffer =
      xs.drop (xs.length - 450)
    ∧ (xs.foldl SignalProcessorState.addDataPoint
        ((SignalProcessorState.init 30).reset)).signalBuffer.length =
      min xs.length 450
    ∧ (xs.foldl SignalProcessorState.addDataPoint
        ((SignalProcessorState.init 30).reset)).signalBuffer <:+ xs := by
  have hbase := addMany_signalBuffer xs ((SignalProcessorState.init 30).reset)
    (by decide) (by decide)
  have hsb : ((SignalProcessorState.init 30).reset).signalBuffer = [] := rfl
  rw [hsb, List.nil_append] at hbase
  refine ⟨hbase, ?_, ?_⟩
  · rw [hbase, List.length_drop]
    omega
  · rw [hbase]
    exact List.drop_suffix _ _

/-! ## Claim C1 — range-based rescue and acceptance -/

/-- Claim C1: the sequential rescue of `calculateHeartRate` agrees with the
claim's case description on the original `bpm = 60·f`: doubling for
`bpm ∈ [25, 50)` exactly when `2·bpm ∈ [50, 200]`, halving for
`bpm ∈ (150, 400]` exactly when `bpm/2 ∈ [50, 150]`, rounding, and acceptance
iff the rescued value lies in `[40, 220]` (`null` otherwise).  The two
descriptions agree because a doubled low value lands in `[50, 100)`, never in
`(150, 400]`. -/
theorem c1_rescue_acceptance (f : ℚ) :
    heartRateDecision f = heartRateDecisionSpec f := by
  simp only [heartRateDecision, heartRateDecisionSpec]
  rw [mul_comm (60:ℚ) f]
  by_cases h1 : f * 60 < 50 ∧ 25 ≤ f * 60
  · have h1s : (25:ℚ) ≤ f * 60 ∧ f * 60 < 50 := ⟨h1.2, h1.1⟩
    rw [if_pos h1, if_pos h1s, mul_comm (2:ℚ) (f * 60)]
    by_cases h2 : (50:ℚ) ≤ f * 60 * 2 ∧ f * 60 * 2 ≤ 200
    · rw [if_pos h2]
      have h3 : ¬((150:ℚ) < f * 60 * 2 ∧ f * 60 * 2 ≤ 400) := by
        rintro ⟨hh, -⟩
        linarith [h1.1]
      rw [if_neg h3]
    · rw [if_neg h2]
      have h3 : ¬((150:ℚ) < f * 60 ∧ f * 60 ≤ 400) := by
        rintro ⟨hh, -⟩
        linarith [h1.1]
      rw [if_neg h3]
  · have h1s : ¬((25:ℚ) ≤ f * 60 ∧ f * 60 < 50) := fun hh => h1 ⟨hh.2, hh.1⟩
    rw [if_neg h1, if_neg h1s]

/-! ## Claim C5 — delayed stable display -/

theorem foldMin_go (l : List ℤ) : ∀ a : ℤ,
    ∃ m, l.foldl
        (fun acc x =>
          match acc with
          | none => some x
          | some m => if x < m then some x else some m)
        (some a) = some m
      ∧ m ≤ a ∧ (m = a ∨ m ∈ l) ∧ ∀ x ∈ l, m ≤ x := by
  induction l with
  | nil =>
    intro a
    exact ⟨a, rfl, le_refl a, Or.inl rfl, by simp⟩
  | cons x l ih =>
    intro a
    by_cases hx : x < a
    · obtain ⟨m, hm, hma, hmem, hall⟩ := ih x
      refine ⟨m, ?_, by omega, ?_, ?_⟩
      · simpa [hx] using hm
      · rcases hmem with h | h
        · exact Or.inr (by simp [h])
        · exact Or.inr (by simp [h])
      · intro y hy
        rcases List.mem_cons.1 hy with rfl | hy
        · exact hma
        · exact hall y hy
    · obtain ⟨m, hm, hma, hmem, hall⟩ := ih a
      refine ⟨m, ?_, hma, ?_, ?_⟩
      · simpa [hx] using hm
      · rcases hmem with h | h
        · exact Or.inl h
        · exact Or.inr (by simp [h])
      · intro y hy
        rcases List.mem_cons.1 hy with rfl | hy
        · omega
        · exact hall y hy

theorem foldMin_char (l : List ℤ) (hne : l ≠ []) :
    ∃ m, foldMin l = some m ∧ m ∈ l ∧ ∀ x ∈ l, m ≤ x := by
  match l with
  | [] => exact absurd rfl hne
  | x :: l =>
    obtain ⟨m, hm, hma, hmem, hall⟩ := foldMin_go l x
    refine ⟨m, ?_, ?_, ?_⟩
    · simpa [foldMin] using hm
    · rcases hmem with h | h
      · simp [h]
      · simp [h]
    · intro y hy
      rcases List.mem_cons.1 hy with rfl | hy
      · exact hma
      · exact hall y hy

/-- Claim C5: after calibration, with target time `t* = now - 5000`: if every
record is farther than 2000 ms from `t*`, the display smoother emits
"unavailable"; if some record is strictly within 2000 ms, it collects all
records with `|ts - t*| < 2000`, and emits `round(μ)` of their values unless
the variance exceeds `15² = 225` (the squared form of `σ > 15`), in which
case it emits "unavailable". -/
theorem c5_delayed_display (history : List HRRecord) (now : ℤ) :
    ((∀ r ∈ history, 2000 < |r.timestamp - (now - 5000)|) →
      getDelayedHeartRate history now = none)
    ∧ ((∃ r ∈ history, |r.timestamp - (now - 5000)| < 2000) →
      getDelayedHeartRate history now =
        (let values := (history.filter
            (fun r => decide (|r.timestamp - (now - 5000)| < 2000))).map
              (fun r => (r.value : ℚ))
         let avg := values.sum / (values.length : ℚ)
         let variance := (values.map (fun v => (v - avg) ^ 2)).sum / (values.length : ℚ)
         if 225 < variance then none else some (round avg))) := by
  constructor
  · intro hfar
    match hhist : history with
    | [] => rfl
    | r0 :: hrest =>
      obtain ⟨m, hm, hmem, -⟩ :=
        foldMin_char ((r0 :: hrest).map (fun r => |r.timestamp - (now - 5000)|))
          (by simp)
      obtain ⟨r, hr, hrm⟩ := List.mem_map.1 hmem
      have h2000 : ¬ m < 2000 := by
        have := hfar r (hhist ▸ hr)
        omega
      simp only [getDelayedHeartRate, hm, h2000, if_false]
  · intro ⟨r, hr, hrnear⟩
    have hne : history.map (fun r => |r.timestamp - (now - 5000)|) ≠ [] := by
      simp only [ne_eq, List.map_eq_nil_iff]
      rintro rfl
      exact absurd hr (List.not_mem_nil r)
    obtain ⟨m, hm, hmem, hall⟩ :=
      foldMin_char (history.map (fun r => |r.timestamp - (now - 5000)|)) hne
    have hmlt : m < 2000 :=
      lt_of_le_of_lt (hall _ (List.mem_map_of_mem _ hr)) hrnear
    simp only [getDelayedHeartRate, hm, hmlt, if_true]
    have hrel : r ∈ history.filter
        (fun r => decide (|r.timestamp - (now - 5000)| < 2000)) :=
      List.mem_filter.2 ⟨hr, by simpa using hrnear⟩
    have hlen : ¬ (history.filter
        (fun r => decide (|r.timestamp - (now - 5000)| < 2000))).length = 0 := by
      simp only [List.length_eq_zero]
      rintro hnil
      rw [hnil] at hrel
      exact absurd hrel (List.not_mem_nil r)
    simp only [getStableHeartRate, hlen, if_false, List.length_map]

unseal Rat.mul Rat.add Rat.sub Rat.inv in
/-- Witness for C5: one record exactly at `t*` (stable, emits its own value
rounded), and an empty history (no nearby record, unavailable). -/
theorem c5_delayed_display_witness :
    ((∃ r ∈ [HRRecord.mk 72 10000], |r.timestamp - (15000 - 5000)| < 2000)
      ∧ getDelayedHeartRate [HRRecord.mk 72 10000] 15000 = some 72)
    ∧ ((∀ r ∈ ([] : List HRRecord), 2000 < |r.timestamp - (8000 - 5000)|)
      ∧ getDelayedHeartRate ([] : List HRRecord) 8000 = none) := by
  refine ⟨⟨by decide, ?_⟩, ⟨by decide, (c5_delayed_display [] 8000).1 (by decide)⟩⟩
  have h := (c5_delayed_display [HRRecord.mk 72 10000] 15000).2 (by decide)
  rw [h]
  decide

/-! ## Claim C6 — calibration gate -/

theorem runDetector_calibration_inv (ticks : List (ℤ × Option ℤ)) :
    ∀ (s : DetectorState) (hor : ℤ),
    (∀ t ∈ ticks.map Prod.fst, t ≤ hor) →
    (s.isCalibrating = false → s.calibrationStartTime + 15000 ≤ hor) →
    (runDetector s ticks).calibrationStartTime = s.calibrationStartTime
    ∧ ((runDetector s ticks).isCalibrating = false →
        s.calibrationStartTime + 15000 ≤ hor) := by
  induction ticks with
  | nil =>
    intro s hor hbound hcal
    exact ⟨rfl, hcal⟩
  | cons tick rest ih =>
    intro s hor hbound hcal
    have htick : tick.1 ≤ hor := hbound tick.1 (by simp)
    have hrest : ∀ t ∈ rest.map Prod.fst, t ≤ hor := by
      intro t ht
      exact hbound t (by simp [ht])
    have hstep_start : ((updateHeartRate s tick.1 tick.2).2).calibrationStartTime =
        s.calibrationStartTime := rfl
    have hstep_cal : ((updateHeartRate s tick.1 tick.2).2).isCalibrating = false →
        s.calibrationStartTime + 15000 ≤ hor := by
      intro hfalse
      have hand : (s.isCalibrating &&
          decide (tick.1 - s.calibrationStartTime < 15000)) = false := hfalse
      rcases Bool.and_eq_false_iff.1 hand with hc | hc
      · exact hcal hc
      · have : ¬ tick.1 - s.calibrationStartTime < 15000 := of_decide_eq_false hc
        omega
    have hmain := ih ((updateHeartRate s tick.1 tick.2).2) hor hrest
      (by rw [hstep_start]; exact hstep_cal)
    rw [runDetector, List.foldl_cons]
    rw [runDetector] at hmain
    exact ⟨hmain.1.trans hstep_start, by rw [hstep_start] at hmain; exact hmain.2⟩

/-- Claim C6: in a session started at `t₀`, for any tick sequence whose times
do not exceed the current time `now` (the clock is monotone within a
session), a tick at `now < t₀ + 15000` never displays a numeric BPM,
whatever the history holds. -/
theorem c6_calibration_gate (t0 : ℤ) (ticks : List (ℤ × Option ℤ)) (now : ℤ)
    (hr : Option ℤ)
    (hmono : ∀ t ∈ ticks.map Prod.fst, t ≤ now)
    (hnow : now < t0 + 15000) :
    ∀ n : ℤ, (updateHeartRate (runDetector (startDetection t0) ticks) now hr).1 ≠
      HRDisplay.bpm n := by
  intro n
  obtain ⟨hstart, hinv⟩ := runDetector_calibration_inv ticks (startDetection t0) now
    hmono (by intro h; simp [startDetection] at h)
  set s := runDetector (startDetection t0) ticks with hs
  have hstart0 : s.calibrationStartTime = t0 := by
    rw [hstart]
    rfl
  have hcal : s.isCalibrating = true := by
    by_contra hfalse
    have hle := hinv (by simpa using hfalse)
    have hle2 : t0 + 15000 ≤ now := by simpa [startDetection] using hle
    omega
  have hcond : (s.isCalibrating && decide (now - s.calibrationStartTime < 15000)) = true := by
    rw [hcal, hstart0]
    simp
    omega
  simp only [updateHeartRate, hcond, if_true]
  intro hcontra
  cases hcontra

/-- Witness for C6: session started at time 0, one tick at 1000 recording 70
BPM, current tick at 2000 with a fresh estimate 72 — still calibrating. -/
theorem c6_calibration_gate_witness :
    (∀ t ∈ ([((1000:ℤ), some (70:ℤ))].map Prod.fst), t ≤ (2000:ℤ))
    ∧ ((2000:ℤ) < 0 + 15000)
    ∧ ∀ n : ℤ,
      (updateHeartRate (runDetector (startDetection 0) [((1000:ℤ), some (70:ℤ))])
        2000 (some 72)).1 ≠ HRDisplay.bpm n :=
  ⟨by decide, by decide,
    c6_calibration_gate 0 [((1000:ℤ), some (70:ℤ))] 2000 (some 72) (by decide) (by decide)⟩

/-! ## Claims C2 and C9 — octave correction candidate selection -/

theorem find?_of_first_with (p : Peak → Prop) [DecidablePred p] :
    ∀ (l₁ : List Peak) (l₂ : List Peak) (d : Peak),
    (∀ x ∈ l₁, ¬ p x) → p d →
    (l₁ ++ d :: l₂).find? (fun x => decide (p x)) = some d := by
  intro l₁
  induction l₁ with
  | nil =>
    intro l₂ d _ hd
    rw [List.nil_append, List.find?_cons_of_pos _ (by simpa using hd)]
  | cons a l₁ ih =>
    intro l₂ d hprev hd
    rw [List.cons_append, List.find?_cons_of_neg _ (by simpa using hprev a (by simp))]
    exact ih l₂ d (fun x hx => hprev x (by simp [hx])) hd

theorem find?_of_none (p : Peak → Prop) [DecidablePred p] (l : List Peak)
    (hnone : ∀ x ∈ l, ¬ p x) :
    l.find? (fun x => decide (p x)) = none :=
  List.find?_eq_none.2 (fun x hx => by simpa using hnone x hx)

theorem halfFreqCheck_first (sorted : List Peak) (best : Peak) (hp : Peak)
    (hfirst : FirstWith sorted (fun p => |p.frequency - best.frequency / 2| < 1/10) hp) :
    halfFreqCheck sorted best =
      (if best.value * (1/2) < hp.value then
        if 120 < best.frequency * 60 ∧ 50 ≤ hp.frequency * 60 ∧ hp.frequency * 60 ≤ 120
        then hp.frequency else best.frequency
       else best.frequency) := by
  obtain ⟨l₁, l₂, heq, hpd, hprev⟩ := hfirst
  simp only [halfFreqCheck, heq, find?_of_first_with _ l₁ l₂ hp hprev hpd]

theorem halfFreqCheck_none (sorted : List Peak) (best : Peak)
    (hnone : ∀ x ∈ sorted, ¬ (|x.frequency - best.frequency / 2| < 1/10)) :
    halfFreqCheck sorted best = best.frequency := by
  simp only [halfFreqCheck, find?_of_none _ _ hnone]

unseal Rat.mul Rat.add Rat.sub Rat.inv in
/-- Counterexample to C2 as stated: on `magOctave` the best peak (bin 2) is
significant, the detected peak at bin 4 lies exactly at twice its frequency
with magnitude exactly `0.7·m_best` — so C2's non-strict "≥" condition holds —
yet the estimator keeps `f_best` because the source requires the strictly
greater `value > 0.7·m_best`. -/
theorem c2_counterexample :
    sortPeaks (findPeaks magOctave 30) = [peakLow, peakDouble]
    ∧ ¬ (peakLow.value < bandAverage magOctave 30 * (3/2 + 3/10))
    ∧ peakDouble ∈ findPeaks magOctave 30
    ∧ |peakDouble.frequency - peakLow.frequency * 2| < 1/10
    ∧ peakLow.value * (7/10) ≤ peakDouble.value
    ∧ findRobustPeakFrequency magOctave 30 (3/10) = peakLow.frequency
    ∧ peakLow.frequency ≠ peakDouble.frequency := by
  decide

/-- Case analysis of the octave correction: all branches of
`findRobustPeakFrequency` and `halfFreqCheck` after a passed significance
gate, phrased through the first in-band candidate of the sorted list. -/
theorem findRobust_octave_cases (magnitude : List ℚ) (rate thr : ℚ)
    (best : Peak) (rest : List Peak)
    (hsort : sortPeaks (findPeaks magnitude rate) = best :: rest)
    (hgate : bandAverage magnitude rate * (3/2 + thr) ≤ best.value) :
    (∀ d, FirstWith (best :: rest)
        (fun p => |p.frequency - best.frequency * 2| < 1/10) d →
      best.value * (7/10) < d.value →
      findRobustPeakFrequency magnitude rate thr = d.frequency)
    ∧ (∀ d, FirstWith (best :: rest)
        (fun p => |p.frequency - best.frequency * 2| < 1/10) d →
      d.value ≤ best.value * (7/10) →
      findRobustPeakFrequency magnitude rate thr = halfFreqCheck (best :: rest) best)
    ∧ ((∀ p ∈ best :: rest, ¬ (|p.frequency - best.frequency * 2| < 1/10)) →
      findRobustPeakFrequency magnitude rate thr = halfFreqCheck (best :: rest) best)
    ∧ (∀ hp, FirstWith (best :: rest)
        (fun p => |p.frequency - best.frequency / 2| < 1/10) hp →
      best.value * (1/2) < hp.value →
      120 < best.frequency * 60 → 50 ≤ hp.frequency * 60 → hp.frequency * 60 ≤ 120 →
      halfFreqCheck (best :: rest) best = hp.frequency)
    ∧ (∀ hp, FirstWith (best :: rest)
        (fun p => |p.frequency - best.frequency / 2| < 1/10) hp →
      (hp.value ≤ best.value * (1/2) ∨ best.frequency * 60 ≤ 120 ∨
        hp.frequency * 60 < 50 ∨ 120 < hp.frequency * 60) →
      halfFreqCheck (best :: rest) best = best.frequency)
    ∧ ((∀ p ∈ best :: rest, ¬ (|p.frequency - best.frequency / 2| < 1/10)) →
      halfFreqCheck (best :: rest) best = best.frequency) := by
  have hnotlt : ¬ (best.value < bandAverage magnitude rate * (3/2 + thr)) :=
    not_lt.2 hgate
  have hfr : findRobustPeakFrequency magnitude rate thr =
      (match (best :: rest).find?
          (fun p => decide (|p.frequency - best.frequency * 2| < 1/10)) with
       | some d =>
         if best.value * (7/10) < d.value then d.frequency
         else halfFreqCheck (best :: rest) best
       | none => halfFreqCheck (best :: rest) best) := by
    simp only [findRobustPeakFrequency, hsort]
    rw [if_neg hnotlt]
  refine ⟨?_, ?_, ?_, ?_, ?_, ?_⟩
  · rintro d ⟨l₁, l₂, heq, hpd, hprev⟩ hval
    rw [hfr, heq, find?_of_first_with _ l₁ l₂ d hprev hpd]
    simp only [if_pos hval]
  · rintro d ⟨l₁, l₂, heq, hpd, hprev⟩ hval
    rw [hfr, heq, find?_of_first_with _ l₁ l₂ d hprev hpd]
    simp only [if_neg (not_lt.2 hval)]
    try rw [← heq]
  · intro hnone
    rw [hfr, find?_of_none _ _ hnone]
  · intro hp hfirst hval h1 h2 h3
    rw [halfFreqCheck_first (best :: rest) best hp hfirst, if_pos hval]
    have hcond : 120 < best.frequency * 60 ∧ 50 ≤ hp.frequency * 60 ∧
        hp.frequency * 60 ≤ 120 := ⟨h1, h2, h3⟩
    rw [if_pos hcond]
  · intro hp hfirst hval
    rw [halfFreqCheck_first (best :: rest) best hp hfirst]
    by_cases hval2 : best.value * (1/2) < hp.value
    · rw [if_pos hval2, if_neg]
      rintro ⟨h1, h2, h3⟩
      rcases hval with hv | hv | hv | hv
      · exact absurd hval2 (not_lt.2 hv)
      · exact absurd h1 (not_lt.2 hv)
      · exact absurd h2 (not_le.2 hv)
      · exact absurd h3 (not_le.2 hv)
    · rw [if_neg hval2]
  · intro hnone
    exact halfFreqCheck_none (best :: rest) best hnone

/-- Claim C2 as amended: when the gate passes, the octave correction tests
only the *first* peak of the score-sorted list within 0.1 Hz of `2·f_best`
(resp. of `f_best/2`), with strict magnitude thresholds
`> 0.7·m_best` (resp. `> 0.5·m_best`); when that single candidate fails, or
none exists, the decision falls through to the half-frequency check
(resp. to `f_best`). -/
theorem c2_amended_first_candidate (magnitude : List ℚ) (rate thr : ℚ)
    (best : Peak) (rest : List Peak)
    (hsort : sortPeaks (findPeaks magnitude rate) = best :: rest)
    (hgate : bandAverage magnitude rate * (3/2 + thr) ≤ best.value) :
    (∀ d, FirstWith (best :: rest)
        (fun p => |p.frequency - best.frequency * 2| < 1/10) d →
      best.value * (7/10) < d.value →
      findRobustPeakFrequency magnitude rate thr = d.frequency)
    ∧ (∀ d, FirstWith (best :: rest)
        (fun p => |p.frequency - best.frequency * 2| < 1/10) d →
      d.value ≤ best.value * (7/10) →
      findRobustPeakFrequency magnitude rate thr = halfFreqCheck (best :: rest) best)
    ∧ ((∀ p ∈ best :: rest, ¬ (|p.frequency - best.frequency * 2| < 1/10)) →
      findRobustPeakFrequency magnitude rate thr = halfFreqCheck (best :: rest) best)
    ∧ (∀ hp, FirstWith (best :: rest)
        (fun p => |p.frequency - best.frequency / 2| < 1/10) hp →
      best.value * (1/2) < hp.value →
      120 < best.frequency * 60 → 50 ≤ hp.frequency * 60 → hp.frequency * 60 ≤ 120 →
      halfFreqCheck (best :: rest) best = hp.frequency)
    ∧ (∀ hp, FirstWith (best :: rest)
        (fun p => |p.frequency - best.frequency / 2| < 1/10) hp →
      (hp.value ≤ best.value * (1/2) ∨ best.frequency * 60 ≤ 120 ∨
        hp.frequency * 60 < 50 ∨ 120 < hp.frequency * 60) →
      halfFreqCheck (best :: rest) best = best.frequency)
    ∧ ((∀ p ∈ best :: rest, ¬ (|p.frequency - best.frequency / 2| < 1/10)) →
      halfFreqCheck (best :: rest) best = best.frequency) :=
  findRobust_octave_cases magnitude rate thr best rest hsort hgate

unseal Rat.mul Rat.add Rat.sub Rat.inv in
/-- Witness for the amended C2 on `magOctave`: the first (only) in-band
candidate `peakDouble` fails the strict threshold, so the decision falls
through to the half-frequency check. -/
theorem c2_amended_first_candidate_witness :
    sortPeaks (findPeaks magOctave 30) = peakLow :: [peakDouble]
    ∧ bandAverage magOctave 30 * (3/2 + 3/10) ≤ peakLow.value
    ∧ peakDouble.value ≤ peakLow.value * (7/10)
    ∧ findRobustPeakFrequency magOctave 30 (3/10) =
        halfFreqCheck (peakLow :: [peakDouble]) peakLow := by
  refine ⟨by decide, by decide, by decide, ?_⟩
  exact (c2_amended_first_candidate magOctave 30 (3/10) peakLow [peakDouble]
    (by decide) (by decide)).2.1 peakDouble
    ⟨[peakLow], [], by decide, by decide, by decide⟩ (by decide)

/-- Claim C9: when the gate passes, the candidate tested against the
`0.7·m_best` threshold is exactly the first peak of the score-sorted list
lying within 0.1 Hz of `2·f_best` — the highest-scoring in-band peak, not
necessarily the closest in frequency — and likewise for the half-frequency
band with its `0.5·m_best` threshold and BPM-range conditions; the whole
selection is a function of the magnitude spectrum, hence deterministic. -/
theorem c9_first_by_score (magnitude : List ℚ) (rate thr : ℚ)
    (best : Peak) (rest : List Peak) (d : Peak)
    (hsort : sortPeaks (findPeaks magnitude rate) = best :: rest)
    (hgate : bandAverage magnitude rate * (3/2 + thr) ≤ best.value)
    (hfirst : FirstWith (best :: rest)
      (fun p => |p.frequency - best.frequency * 2| < 1/10) d) :
    findRobustPeakFrequency magnitude rate thr =
      (if best.value * (7/10) < d.value then d.frequency
       else halfFreqCheck (best :: rest) best)
    ∧ ∀ hp, FirstWith (best :: rest)
        (fun p => |p.frequency - best.frequency / 2| < 1/10) hp →
      halfFreqCheck (best :: rest) best =
        (if best.value * (1/2) < hp.value ∧ 120 < best.frequency * 60 ∧
            50 ≤ hp.frequency * 60 ∧ hp.frequency * 60 ≤ 120
         then hp.frequency else best.frequency) := by
  constructor
  · by_cases hval : best.value * (7/10) < d.value
    · rw [if_pos hval]
      exact (findRobust_octave_cases magnitude rate thr best rest hsort hgate).1
        d hfirst hval
    · rw [if_neg hval]
      exact (findRobust_octave_cases magnitude rate thr best rest hsort hgate).2.1
        d hfirst (not_lt.1 hval)
  · intro hp hpfirst
    rw [halfFreqCheck_first (best :: rest) best hp hpfirst]
    by_cases h1 : best.value * (1/2) < hp.value
    · rw [if_pos h1]
      by_cases h2 : 120 < best.frequency * 60 ∧ 50 ≤ hp.frequency * 60 ∧
          hp.frequency * 60 ≤ 120
      · rw [if_pos h2, if_pos ⟨h1, h2.1, h2.2.1, h2.2.2⟩]
      · rw [if_neg h2, if_neg]
        rintro ⟨-, hb, hc, hd⟩
        exact h2 ⟨hb, hc, hd⟩
    · rw [if_neg h1, if_neg]
      rintro ⟨ha, -⟩
      exact h1 ha

unseal Rat.mul Rat.add Rat.sub Rat.inv in
/-- Witness for C9 on `magOctave`: the only double-band candidate is
`peakDouble`, which the sorted order places after the best peak, and the
estimator's result is `if 7 < 7 then ... else halfFreqCheck ...`. -/
theorem c9_first_by_score_witness :
    sortPeaks (findPeaks magOctave 30) = peakLow :: [peakDouble]
    ∧ bandAverage magOctave 30 * (3/2 + 3/10) ≤ peakLow.value
    ∧ (findRobustPeakFrequency magOctave 30 (3/10) =
        (if peakLow.value * (7/10) < peakDouble.value then peakDouble.frequency
         else halfFreqCheck (peakLow :: [peakDouble]) peakLow)
      ∧ ∀ hp, FirstWith (peakLow :: [peakDouble])
          (fun p => |p.frequency - peakLow.frequency / 2| < 1/10) hp →
        halfFreqCheck (peakLow :: [peakDouble]) peakLow =
          (if peakLow.value * (1/2) < hp.value ∧ 120 < peakLow.frequency * 60 ∧
              50 ≤ hp.frequency * 60 ∧ hp.frequency * 60 ≤ 120
           then hp.frequency else peakLow.frequency)) :=
  ⟨by decide, by decide,
    c9_first_by_score magOctave 30 (3/10) peakLow [peakDouble] peakDouble
      (by decide) (by decide) ⟨[peakLow], [], by decide, by decide, by decide⟩⟩

/-! ## Claim C3 — significance-gate margin after reset -/

unseal Rat.mul Rat.add Rat.sub Rat.inv in
/-- Claim C3 names the intended behaviour (margin `adaptiveThreshold = 0.3`
in every reachable state, the spec declares the constructor value canonical);
the code instead hard-codes `0.7` in `reset()`, which `startDetection()`
invokes at every session start.  On `magGate`, whose best peak sits at
exactly `2·mavg`, the post-reset gate `2.2·mavg` rejects the peak (returns 0,
"no estimate") while the claimed gate `1.8·mavg` accepts it. -/
theorem c3_reset_gate_divergence :
    (SignalProcessorState.init 30).adaptiveThreshold = 3/10
    ∧ ((SignalProcessorState.init 30).reset).adaptiveThreshold = 7/10
    ∧ findRobustPeakFrequency magGate 30
        (((SignalProcessorState.init 30).reset).adaptiveThreshold) = 0
    ∧ findRobustPeakFrequency magGate 30
        ((SignalProcessorState.init 30).adaptiveThreshold) = 45/32
    ∧ ((45 : ℚ)/32 ≠ 0) := by
  decide

/-! ## Claim C4 — adaptive coefficients used by the bandpass -/

set_option maxRecDepth 100000 in
unseal Rat.mul Rat.add Rat.sub Rat.inv in
/-- Counterexample to C4 as stated: `motionState` is reached from `reset()`
by 60 `addDataPoint` calls; at the next processing request motion *is*
detected (so C4 dictates `αLP = 0.10`, `αHP = 0.99`), but the bandpass of
that same request runs before `adaptiveSignalProcessing` re-evaluates motion
and therefore still uses the stored nominal `αLP = 0.15`, `αHP = 0.98`; the
two pipelines produce different outputs. -/
theorem c4_counterexample :
    30 ≤ motionState.signalBuffer.length
    ∧ motionState.detectMotionArtifacts = true
    ∧ motionState.lowPassAlpha = 15/100
    ∧ motionState.highPassAlpha = 98/100
    ∧ motionState.getProcessedSignal.1 =
        some (movingAverage (bandPassFilter (98/100) (15/100)
          (removeOutliers motionState.signalBuffer 2)) 8)
    ∧ motionState.getProcessedSignal.1 ≠
        some (movingAverage (bandPassFilter (99/100) (1/10)
          (removeOutliers motionState.signalBuffer 2)) 8) := by
  decide

/-- Claim C4 as amended: a processing request on a buffer of length ≥ 30
applies the bandpass with the coefficients *stored before the request* (those
set by the previous request's motion evaluation, or `0.15 / 0.98` right after
`reset()`); the motion state evaluated at the request itself dictates only
that request's moving-average window (8 under motion, 5 nominally) and the
stored coefficients that the *next* request's bandpass will use. -/
theorem c4_amended_stale_coefficients (s : SignalProcessorState)
    (h : 30 ≤ s.signalBuffer.length) :
    s.getProcessedSignal.1 =
      some (movingAverage
        (bandPassFilter s.highPassAlpha s.lowPassAlpha (removeOutliers s.signalBuffer 2))
        (if s.detectMotionArtifacts then 8 else 5))
    ∧ s.getProcessedSignal.2.lowPassAlpha =
        (if s.detectMotionArtifacts then 1/10 else 15/100)
    ∧ s.getProcessedSignal.2.highPassAlpha =
        (if s.detectMotionArtifacts then 99/100 else 98/100)
    ∧ ∀ t : SignalProcessorState,
        (SignalProcessorState.reset t).lowPassAlpha = 15/100 ∧
        (SignalProcessorState.reset t).highPassAlpha = 98/100 := by
  have hnot : ¬ s.signalBuffer.length < 30 := not_lt.2 h
  simp only [SignalProcessorState.getProcessedSignal, hnot, if_false,
    SignalProcessorState.adaptiveSignalProcessing]
  cases hm : s.detectMotionArtifacts <;>
    simp [hm, SignalProcessorState.reset]

set_option maxRecDepth 100000 in
unseal Rat.mul Rat.add Rat.sub Rat.inv in
/-- Witness for the amended C4 at `motionState`. -/
theorem c4_amended_stale_coefficients_witness :
    30 ≤ motionState.signalBuffer.length
    ∧ (motionState.getProcessedSignal.1 =
      some (movingAverage
        (bandPassFilter motionState.highPassAlpha motionState.lowPassAlpha
          (removeOutliers motionState.signalBuffer 2))
        (if motionState.detectMotionArtifacts then 8 else 5))
    ∧ motionState.getProcessedSignal.2.lowPassAlpha =
        (if motionState.detectMotionArtifacts then 1/10 else 15/100)
    ∧ motionState.getProcessedSignal.2.highPassAlpha =
        (if motionState.detectMotionArtifacts then 99/100 else 98/100)
    ∧ ∀ t : SignalProcessorState,
        (SignalProcessorState.reset t).lowPassAlpha = 15/100 ∧
        (SignalProcessorState.reset t).highPassAlpha = 98/100) :=
  ⟨by decide, c4_amended_stale_coefficients motionState (by decide)⟩

end SportTest

